import Mathlib

/-!
# cgroup-enhancer: the pod reconciler

A shallow embedding of `controllers/pod_controller.go`.  The reconciler talks to
four collaborators (the API client, containerd, the cgroup library and the
logger).  Every call to the first three is an oracle of a `World`, threaded
through an explicit world state, and every call is recorded in a trace of
`Event`s, so that "which calls were issued, with which arguments, in which
order" is a list that theorems can talk about.
-/

set_option autoImplicit false

namespace CgroupEnhancer

/-! ## Go's `strings` functions used by the reconciler

A Go string is read as a Lean `String` (UTF-8 text) and offsets count
characters.  The separator `://` is ASCII, so cutting at a character offset
and cutting at the matching byte offset give the same pieces. -/

/-- Go `strings.Index(s, substr)`: the offset of the first occurrence of
`substr` in `s`; `none` stands for Go's `-1`. -/
def Index (s substr : List Char) : Option Nat :=
  match s with
  | [] => if substr.isPrefixOf [] then some 0 else none
  | c :: cs =>
    if substr.isPrefixOf (c :: cs) then some 0
    else (Index cs substr).map (· + 1)

/-- Go `strings.explode(s, n)` for `n ≥ 0`: at most `n` pieces, one character
each, the last one holding the rest. -/
def explode (s : List Char) (n : Nat) : List (List Char) :=
  let n := if n > s.length then s.length else n
  if n = 0 then []
  else (s.take (n - 1)).map (fun c => [c]) ++ [s.drop (n - 1)]

/-- The loop of Go `strings.genSplit` (with `sepSave = 0`): `k` is the number
of cuts still allowed (`n - 1 - i` in the source). -/
def genSplitLoop (sep : List Char) : Nat → List Char → List (List Char)
  | 0, s => [s]
  | k + 1, s =>
    match Index s sep with
    | none => [s]
    | some m => s.take m :: genSplitLoop sep k (s.drop (m + sep.length))

/-- Go `strings.SplitN(s, sep, n)` for a count `n ≥ 0` (the reconciler passes
the literal `2`).  `len(s)` is the byte length of the string. -/
def SplitN (s sep : String) (n : Nat) : List String :=
  if n = 0 then []
  else if sep = "" then (explode s.data n).map String.mk
  else
    let n := if n > s.utf8ByteSize + 1 then s.utf8ByteSize + 1 else n
    (genSplitLoop sep.data (n - 1) s.data).map String.mk

/-! ## Data model -/

/-- A Go `error` value, kept as its message. -/
abbrev Error := String

/-- An error of the API client; `notFound` is what `errors.IsNotFound` reports. -/
structure ApiError where
  notFound : Bool
  message : String
  deriving DecidableEq, Repr

/-- The fields of `v1.ContainerStatus` the reconciler reads. -/
structure ContainerStatus where
  Name : String
  ContainerID : String
  deriving DecidableEq, Repr

/-- The fields of `v1.Pod` the reconciler reads.  `DeletionTimestamp` is a
pointer (`none` is `nil`), `Annotations` is a Go map (`none` is the nil map),
`Phase` is the string type `v1.PodPhase`. -/
structure Pod where
  DeletionTimestamp : Option Nat
  Annotations : Option (List (String × String))
  Phase : String
  ContainerStatuses : List ContainerStatus
  deriving DecidableEq, Repr

/-- The namespaced name carried by `ctrl.Request`. -/
structure Request where
  Namespace : String
  Name : String
  deriving DecidableEq, Repr

/-- The type `ctrl.Result`. -/
structure Result where
  Requeue : Bool
  RequeueAfter : Int
  deriving DecidableEq, Repr

/-- The type `specs.LinuxDeviceCgroup`; `Major` and `Minor` are pointers, and
`Type_` is the field `Type`. -/
structure LinuxDeviceCgroup where
  Allow : Bool
  Type_ : String
  Major : Option Int
  Minor : Option Int
  Access : String
  deriving DecidableEq, Repr

/-- The type `specs.LinuxResources`, reduced to the one field the reconciler
sets; every other field of the literal is left at its zero value. -/
structure LinuxResources where
  Devices : List LinuxDeviceCgroup
  deriving DecidableEq, Repr

/-- The type `cgroups.State`, a string type. -/
abbrev State := String

/-- The constant `cgroups.Deleted`. -/
def Deleted : State := "deleted"

/-- The constant `v1.PodRunning`. -/
def PodRunning : String := "Running"

def ALLOW_BLOCK_KEY : String := "cgroup-enhancer.device.allow.block"

def CRI_NAMESPACE : String := "k8s.io"

/-- The socket address passed to `containerd.New`. -/
def containerdSock : String := "/run/containerd/containerd.sock"

/-- Go map indexing `m[k]` on a `map[string]string`: the zero value `""` when
the map is nil or the key is absent. -/
def mapIndex (m : Option (List (String × String))) (k : String) : String :=
  match m with
  | none => ""
  | some kvs => (kvs.lookup k).getD ""

/-- Severity of a log line: `Log.Info` or `Log.Error`. -/
inductive Level where
  | info
  | error
  deriving DecidableEq, Repr

/-- One observable action of the reconciler.  A log call is recorded with its
level and its format string (the formatted arguments are not kept) and does
not touch the world.  Every other event is a call to a collaborator, with its
arguments. -/
inductive Event where
  | log (level : Level) (format : String)
  /-- The call `r.Client.Get`. -/
  | get (req : Request)
  /-- The call `containerd.New(address)`. -/
  | newClient (address : String)
  /-- The call `client.IsServing`. -/
  | isServing
  /-- The call `client.TaskService().Get` in namespace `ns`. -/
  | taskGet (ns : String) (containerID : String)
  /-- The call `cgroups.Load(cgroups.V1, cgroups.PidPath(pid))`. -/
  | load (pid : Nat)
  /-- The call `control.State()` on the handle loaded for `pid`. -/
  | state (pid : Nat)
  /-- The call `control.Update(resources)` on the handle loaded for `pid`. -/
  | update (pid : Nat) (resources : LinuxResources)
  /-- The deferred `client.Close()`. -/
  | close
  deriving DecidableEq, Repr

/-- The collaborators.  Each oracle receives the current world state and
returns its answer together with the next world state, so an answer may depend
on everything that happened before.  `taskGet` answers with the `Pid` of
`task.Process` (a `uint32`; `int(...)` keeps its value).  `load` answers with
an error or with a handle, which is identified by the pid it was loaded for.
`development` tells whether the logger is zap's Development logger, which is
what `main.go` builds (`zap.Options{Development: true}`, unless a command-line
flag overrides it): in that mode a log call that passes an odd number of
key/value arguments panics, in the other mode it returns. -/
structure World (σ : Type) where
  development : Bool
  get : Request → σ → Except ApiError Pod × σ
  newClient : String → σ → Option Error × σ
  isServing : σ → (Bool × Option Error) × σ
  taskGet : String → String → σ → Except Error Nat × σ
  load : Nat → σ → Option Error × σ
  state : Nat → σ → State × σ
  update : Nat → LinuxResources → σ → Option Error × σ
  close : σ → σ

/-! ## The enforcement task (the body of the `go func()`) -/

/-- The resources literal passed to `control.Update`. -/
def deviceResources (value : String) : LinuxResources :=
  { Devices := [{ Allow := true, Type_ := "b", Major := none, Minor := none, Access := value }] }

/-- One iteration of the loop over `pod.Status.ContainerStatuses`: the events
it emits and the world state it leaves.  Every `continue` of the source ends
the iteration. -/
def processContainer {σ : Type} (w : World σ) (value : String) (containerStatus : ContainerStatus)
    (s : σ) : List Event × σ :=
  match SplitN containerStatus.ContainerID "://" 2 with
  | [_, containerId] =>
    match w.taskGet CRI_NAMESPACE containerId s with
    | (.error _, s1) =>
      ([.taskGet CRI_NAMESPACE containerId,
        .log .error "pod(%v/%v) container(%v) get task error : %v"], s1)
    | (.ok pid, s1) =>
      match w.load pid s1 with
      | (some _, s2) =>
        ([.taskGet CRI_NAMESPACE containerId,
          .log .info "pod(%v/%v) container(%v/%v) get task pid : %v",
          .load pid,
          .log .error "pod(%v/%v) container(%v/%v) load cgroup error : %v"], s2)
      | (none, s2) =>
        match w.state pid s2 with
        | (st, s3) =>
          if st = Deleted then
            ([.taskGet CRI_NAMESPACE containerId,
              .log .info "pod(%v/%v) container(%v/%v) get task pid : %v",
              .load pid,
              .state pid,
              .log .info "pod(%v/%v) container(%v/%v) cgroup deleted"], s3)
          else
            match w.update pid (deviceResources value) s3 with
            | (some _, s4) =>
              ([.taskGet CRI_NAMESPACE containerId,
                .log .info "pod(%v/%v) container(%v/%v) get task pid : %v",
                .load pid,
                .state pid,
                .update pid (deviceResources value),
                .log .error "pod(%v/%v) container(%v/%v/%v) devices update error : %v"], s4)
            | (none, s4) =>
              ([.taskGet CRI_NAMESPACE containerId,
                .log .info "pod(%v/%v) container(%v/%v) get task pid : %v",
                .load pid,
                .state pid,
                .update pid (deviceResources value),
                .log .info "pod(%v/%v) container(%v/%v/%v) devices update successful"], s4)
  | _ =>
    ([.log .info "pod(%v/%v) container(%v) containerId invalid : %v"], s)

/-- The loop `for _, containerStatus := range pod.Status.ContainerStatuses`. -/
def rangeContainers {σ : Type} (w : World σ) (value : String) :
    List ContainerStatus → σ → List Event × σ
  | [], s => ([], s)
  | containerStatus :: rest, s =>
    let r1 := processContainer w value containerStatus s
    let r2 := rangeContainers w value rest r1.2
    (r1.1 ++ r2.1, r2.2)

/-- How a goroutine ends. -/
inductive Outcome where
  | returned
  | panicked
  deriving DecidableEq, Repr

/-- What a run of the enforcement task leaves behind. -/
structure TaskRun (σ : Type) where
  outcome : Outcome
  events : List Event
  st : σ

/-- The body of the `go func()` started by `Reconcile`, with the captured
`pod` and `value`.  When `containerd.New` fails the client is nil: the body
logs and calls `panic`; the deferred `client.Close()` then runs on the nil
client, where it closes no session and can only raise a second panic.  On
every other path the deferred `client.Close()` runs last.  When `IsServing`
answers with an error, the call `r.Log.Error(err, "...%v", err)` passes the
lone argument `err` where key/value pairs are expected: under the Development
logger that call panics, so the `return` after it is not reached (the
deferred close still runs). -/
def enforce {σ : Type} (w : World σ) (pod : Pod) (value : String) (s : σ) : TaskRun σ :=
  match w.newClient containerdSock s with
  | (some _, s1) =>
    { outcome := .panicked
      events := [.newClient containerdSock, .log .error "create containerd client error"]
      st := s1 }
  | (none, s1) =>
    match w.isServing s1 with
    | ((_, some _), s2) =>
      { outcome := if w.development then .panicked else .returned
        events := [.newClient containerdSock, .isServing,
                   .log .error "containerd client serving error : %v", .close]
        st := w.close s2 }
    | ((false, none), s2) =>
      { outcome := .returned
        events := [.newClient containerdSock, .isServing,
                   .log .error "containerd client serving false", .close]
        st := w.close s2 }
    | ((true, none), s2) =>
      let r := rangeContainers w value pod.ContainerStatuses s2
      { outcome := .returned
        events := [.newClient containerdSock, .isServing] ++ r.1 ++ [.close]
        st := w.close r.2 }

/-! ## The reconciler -/

/-- The value `ctrl.Result{}` bound to `done`. -/
def done : Result := { Requeue := false, RequeueAfter := 0 }

/-- What a call of `Reconcile` leaves behind: the returned pair, the events of
the call itself, the world state, and the goroutine it started (if any),
given by the `pod` and `value` the closure captured. -/
structure ReconcileRun (σ : Type) where
  result : Result
  err : Option Error
  events : List Event
  st : σ
  spawned : Option (Pod × String)

/-- The method `PodReconciler.Reconcile`. -/
def Reconcile {σ : Type} (w : World σ) (req : Request) (s : σ) : ReconcileRun σ :=
  match w.get req s with
  | (.error err, s1) =>
    if err.notFound then
      { result := done, err := none
        events := [.log .info "pod %v reconcile", .get req, .log .info "pod %v not found"]
        st := s1, spawned := none }
    else
      { result := done, err := none
        events := [.log .info "pod %v reconcile", .get req, .log .info "pod %v/%v error : %v"]
        st := s1, spawned := none }
  | (.ok pod, s1) =>
    if pod.DeletionTimestamp ≠ none ∨ pod.Phase ≠ PodRunning then
      { result := done, err := none
        events := [.log .info "pod %v reconcile", .get req,
                   .log .info "pod %v/%v deleted or not running"]
        st := s1, spawned := none }
    else
      let value := mapIndex pod.Annotations ALLOW_BLOCK_KEY
      if value.utf8ByteSize ≤ 0 then
        { result := done, err := none
          events := [.log .info "pod %v reconcile", .get req,
                     .log .info "pod %v/%v device.allow block value is empty"]
          st := s1, spawned := none }
      else
        { result := done, err := none
          events := [.log .info "pod %v reconcile", .get req,
                     .log .info "pod %v/%v device.allow block value is [%v], try to update cgroup device.allow"]
          st := s1, spawned := some (pod, value) }

/-- The events of one reconciliation cycle: those of `Reconcile`, followed by
those of the enforcement task it started, run from the state `Reconcile` left. -/
def cycleEvents {σ : Type} (w : World σ) (req : Request) (s : σ) : List Event :=
  match (Reconcile w req s).spawned with
  | none => (Reconcile w req s).events
  | some (pod, value) =>
    (Reconcile w req s).events ++ (enforce w pod value (Reconcile w req s).st).events

/-! ## Reading a trace -/

/-- The `control.Update` calls of a trace: the pid whose cgroup is addressed
and the resources sent. -/
def updates (t : List Event) : List (Nat × LinuxResources) :=
  t.filterMap fun e => match e with
    | .update pid r => some (pid, r)
    | _ => none

/-- The task lookups of a trace: namespace and container id. -/
def lookups (t : List Event) : List (String × String) :=
  t.filterMap fun e => match e with
    | .taskGet ns id => some (ns, id)
    | _ => none

/-- The `cgroups.Load` calls of a trace. -/
def loads (t : List Event) : List Nat :=
  t.filterMap fun e => match e with
    | .load pid => some pid
    | _ => none

/-- The `containerd.New` calls of a trace. -/
def sessions (t : List Event) : List String :=
  t.filterMap fun e => match e with
    | .newClient address => some address
    | _ => none

/-- The calls to the runtime and to the cgroup library in a trace, in order:
the trace without its log lines. -/
def calls (t : List Event) : List Event :=
  t.filter fun e => match e with
    | .log _ _ => false
    | _ => true

/-- Go `strings.Contains(s, substr)` as a proposition. -/
def Contains (s substr : String) : Prop := substr.data <:+: s.data

/-- The text after the first occurrence of `sep` in `s`, when there is one:
the text is read from its start, and the first position where `sep` begins
decides. -/
def afterFirst (sep : List Char) : List Char → Option (List Char)
  | [] => if sep.isPrefixOf [] then some [] else none
  | c :: cs =>
    if sep.isPrefixOf (c :: cs) then some ((c :: cs).drop sep.length)
    else afterFirst sep cs

/-- The task lookup the interface description asks for a container status:
none when its identifier has no `://`; else one lookup in the fixed namespace
`k8s.io`, keyed by the bare id, the text after the first `://`. -/
def expectedLookup (c : ContainerStatus) : Option (String × String) :=
  (afterFirst [':', '/', '/'] c.ContainerID.data).map fun key => ("k8s.io", String.mk key)

/-! ## Worlds used in the concrete scenarios -/

/-- A world without memory, with the logger `main.go` builds: the fetch
returns `pod`, `containerd.New` answers `session`, `IsServing` answers
`serving`, the task of container `id` has the pid `pidOf id` (and the lookup
fails where `pidOf id` is `none`), every cgroup loads in state `st` and every
update is accepted. -/
def scenarioWorld (pod : Pod) (session : Option Error) (serving : Bool × Option Error)
    (pidOf : String → Option Nat) (st : State) : World Unit where
  development := true
  get := fun _ s => (.ok pod, s)
  newClient := fun _ s => (session, s)
  isServing := fun s => (serving, s)
  taskGet := fun _ id s =>
    match pidOf id with
    | some pid => (.ok pid, s)
    | none => (.error "not found", s)
  load := fun _ s => (none, s)
  state := fun _ s => (st, s)
  update := fun _ _ s => (none, s)
  close := fun s => s

/-- The pod `ns/a` of the scenarios: running, not deleted, annotated with
`value`, with the given container statuses. -/
def scenarioPod (phase : String) (value : String) (cs : List ContainerStatus) : Pod :=
  { DeletionTimestamp := none
    Annotations := some [(ALLOW_BLOCK_KEY, value)]
    Phase := phase
    ContainerStatuses := cs }

/-- The runtime of the scenarios: it knows the task of `abc123`, with pid
4242, and no other task. -/
def scenarioPid (id : String) : Option Nat :=
  if id = "abc123" then some 4242 else none

/-- The container of the scenarios. -/
def containerAbc : ContainerStatus := { Name := "main", ContainerID := "containerd://abc123" }

/-- A container whose task the runtime of the scenarios does not know. -/
def containerGone : ContainerStatus := { Name := "sidecar", ContainerID := "containerd://gone" }

/-- A container whose identifier has no scheme separator. -/
def containerBare : ContainerStatus := { Name := "bare", ContainerID := "abc123" }

/-- The request of the scenarios, for the pod `ns/a`. -/
def scenarioReq : Request := { Namespace := "ns", Name := "a" }

/-- A running pod that has no annotation map. -/
def podUnannotated : Pod :=
  { DeletionTimestamp := none, Annotations := none, Phase := "Running",
    ContainerStatuses := [containerAbc] }

/-- The world of the main scenario: pod `ns/a` annotated `rwm`, in the given
phase, with the given containers; the session is established and serving, and
cgroups are in state `thawed`. -/
def mainWorld (phase : String) (cs : List ContainerStatus) : World Unit :=
  scenarioWorld (scenarioPod phase "rwm" cs) none (true, none) scenarioPid "thawed"

/-- The main scenario with every cgroup already deleted. -/
def deletedWorld : World Unit :=
  scenarioWorld (scenarioPod "Running" "rwm" [containerAbc]) none (true, none) scenarioPid Deleted

/-- The main scenario with a containerd that cannot be reached. -/
def noSessionWorld : World Unit :=
  scenarioWorld (scenarioPod "Running" "rwm" [containerAbc]) (some "connection refused")
    (true, none) scenarioPid "thawed"

/-- The main scenario with a containerd that is not serving. -/
def notServingWorld : World Unit :=
  scenarioWorld (scenarioPod "Running" "rwm" [containerAbc]) none (false, none)
    scenarioPid "thawed"

/-- The main scenario with a containerd whose liveness check fails with an
error. -/
def healthErrorWorld : World Unit :=
  scenarioWorld (scenarioPod "Running" "rwm" [containerAbc]) none
    (false, some "context canceled") scenarioPid "thawed"

/-! ## Lemmas on `Index` and `SplitN` -/

theorem Index_eq_none_iff (s sep : List Char) : Index s sep = none ↔ ¬ sep <:+: s := by
  induction s with
  | nil =>
    unfold Index
    by_cases h : sep = []
    · subst h; simp
    · have : ¬ sep <+: [] := by simpa using h
      simp [h]
  | cons c cs ih =>
    unfold Index
    by_cases h : sep <+: c :: cs
    · simp [h, List.infix_cons_iff]
    · simp [h, List.infix_cons_iff, ih]

/-- The offset found by `Index` cuts the text into the part before the first
occurrence (which holds no occurrence), the separator, and the part after it. -/
theorem Index_eq_some (s sep : List Char) (m : Nat) (hsep : sep ≠ [])
    (h : Index s sep = some m) :
    s = s.take m ++ sep ++ s.drop (m + sep.length) ∧ ¬ sep <:+: s.take m := by
  induction s generalizing m with
  | nil =>
    unfold Index at h
    have : ¬ sep <+: [] := by simpa using hsep
    simp [this] at h
  | cons c cs ih =>
    unfold Index at h
    by_cases hp : sep <+: c :: cs
    · simp [hp] at h
      subst h
      obtain ⟨t, ht⟩ := hp
      refine ⟨?_, by simpa using hsep⟩
      rw [← ht]
      simp
    · simp [hp] at h
      obtain ⟨m', hm', rfl⟩ := h
      obtain ⟨h1, h2⟩ := ih m' hm'
      refine ⟨?_, ?_⟩
      · have : c :: cs = c :: (cs.take m' ++ sep ++ cs.drop (m' + sep.length)) := by rw [← h1]
        simpa [Nat.add_right_comm] using this
      · rw [List.take_succ_cons, List.infix_cons_iff]
        rintro (h3 | h3)
        · exact hp (h3.trans ((List.prefix_cons_inj c).2 (List.take_prefix m' cs)))
        · exact h2 h3

/-- The separator `://` is first found right after a prefix that does not
hold it: no occurrence can straddle the end of the prefix. -/
theorem Index_scheme (p r : List Char) (hp : ¬ [':', '/', '/'] <:+: p) :
    Index (p ++ [':', '/', '/'] ++ r) [':', '/', '/'] = some p.length := by
  induction p with
  | nil => simp [Index]
  | cons c p' ih =>
    have hp' : ¬ [':', '/', '/'] <:+: p' := fun h => hp (List.infix_cons_iff.2 (Or.inr h))
    have hnot : ¬ [':', '/', '/'] <+: c :: (p' ++ [':', '/', '/'] ++ r) := by
      intro h
      apply hp
      match p', h with
      | [], h => simp at h
      | [d], h => simp at h
      | d :: e :: p'', h =>
        simp at h
        obtain ⟨rfl, rfl, rfl⟩ := h
        exact (List.prefix_append [':', '/', '/'] p'').isInfix
    have hb : ([':', '/', '/'] : List Char).isPrefixOf (c :: (p' ++ [':', '/', '/'] ++ r)) = false :=
      Bool.eq_false_iff.2 (fun h => hnot (List.isPrefixOf_iff_prefix.1 h))
    show Index (c :: (p' ++ [':', '/', '/'] ++ r)) [':', '/', '/'] = some (p'.length + 1)
    rw [Index, hb, ih hp']
    rfl

theorem utf8ByteSize_pos_of_data_ne_nil (s : String) (h : s.data ≠ []) : 0 < s.utf8ByteSize := by
  obtain ⟨cs⟩ := s
  cases cs with
  | nil => exact absurd rfl h
  | cons c cs =>
    simp only [String.utf8ByteSize_mk, String.utf8Len_cons]
    have := Char.utf8Size_pos c
    omega

/-- What `strings.SplitN(s, "://", 2)` returns: the text itself when it holds
no separator, else the text before and the text after the first separator. -/
theorem SplitN_scheme (s : String) :
    SplitN s "://" 2 =
      match Index s.data [':', '/', '/'] with
      | none => [s]
      | some m => [String.mk (s.data.take m), String.mk (s.data.drop (m + 3))] := by
  have hsep : ("://" : String) ≠ "" := by decide
  have hdata : ("://" : String).data = [':', '/', '/'] := rfl
  unfold SplitN
  simp only [hsep, if_false, hdata, show (2 : Nat) ≠ 0 by decide]
  by_cases hclamp : 2 > s.utf8ByteSize + 1
  · have hnil : s.data = [] := by
      by_contra hne
      have := utf8ByteSize_pos_of_data_ne_nil s hne
      omega
    have hz : s.utf8ByteSize = 0 := by omega
    have hs : s = String.mk [] := by
      obtain ⟨cs⟩ := s
      simp only at hnil
      rw [hnil]
    subst hs
    simp [hz, genSplitLoop, Index]
  · simp only [hclamp, if_false]
    show List.map String.mk (genSplitLoop [':', '/', '/'] 1 s.data) = _
    unfold genSplitLoop
    cases hI : Index s.data [':', '/', '/'] with
    | none => simp
    | some m => simp [genSplitLoop]

/-! ## Lemmas on traces and on the loop -/

theorem updates_append (a b : List Event) : updates (a ++ b) = updates a ++ updates b := by
  simp [updates, List.filterMap_append]

theorem lookups_append (a b : List Event) : lookups (a ++ b) = lookups a ++ lookups b := by
  simp [lookups, List.filterMap_append]

theorem loads_append (a b : List Event) : loads (a ++ b) = loads a ++ loads b := by
  simp [loads, List.filterMap_append]

theorem calls_append (a b : List Event) : calls (a ++ b) = calls a ++ calls b := by
  simp [calls, List.filter_append]

theorem rangeContainers_append {σ : Type} (w : World σ) (value : String)
    (xs ys : List ContainerStatus) (s : σ) :
    rangeContainers w value (xs ++ ys) s =
      ((rangeContainers w value xs s).1 ++
          (rangeContainers w value ys (rangeContainers w value xs s).2).1,
        (rangeContainers w value ys (rangeContainers w value xs s).2).2) := by
  induction xs generalizing s with
  | nil => simp [rangeContainers]
  | cons x xs ih => simp [rangeContainers, ih, List.append_assoc]

theorem rangeContainers_cons {σ : Type} (w : World σ) (value : String)
    (x : ContainerStatus) (xs : List ContainerStatus) (s : σ) :
    rangeContainers w value (x :: xs) s =
      ((processContainer w value x s).1 ++
          (rangeContainers w value xs (processContainer w value x s).2).1,
        (rangeContainers w value xs (processContainer w value x s).2).2) := rfl

/-- A container whose identifier does not split in two only logs. -/
theorem processContainer_unsplit {σ : Type} (w : World σ) (value : String)
    (c : ContainerStatus) (s : σ) (h : ¬ Contains c.ContainerID "://") :
    processContainer w value c s =
      ([.log .info "pod(%v/%v) container(%v) containerId invalid : %v"], s) := by
  have hI : Index c.ContainerID.data [':', '/', '/'] = none :=
    (Index_eq_none_iff _ _).2 h
  have hS : SplitN c.ContainerID "://" 2 = [c.ContainerID] := by
    rw [SplitN_scheme, hI]
  unfold processContainer
  rw [hS]

theorem updates_calls (t : List Event) : updates (calls t) = updates t := by
  induction t with
  | nil => rfl
  | cons e t ih => cases e <;> simp_all [updates, calls, List.filter_cons, List.filterMap_cons]

theorem lookups_calls (t : List Event) : lookups (calls t) = lookups t := by
  induction t with
  | nil => rfl
  | cons e t ih => cases e <;> simp_all [lookups, calls, List.filter_cons, List.filterMap_cons]

theorem loads_calls (t : List Event) : loads (calls t) = loads t := by
  induction t with
  | nil => rfl
  | cons e t ih => cases e <;> simp_all [loads, calls, List.filter_cons, List.filterMap_cons]

/-- The five ways through one iteration of the loop, each with the calls it
makes (the trace without its log lines) and the world state it leaves:
identifier not split; lookup failed; load failed; handle Deleted; update
issued. -/
theorem processContainer_cases {σ : Type} (w : World σ) (value : String)
    (c : ContainerStatus) (s : σ) :
    ((∀ p id, SplitN c.ContainerID "://" 2 ≠ [p, id]) ∧
        calls (processContainer w value c s).1 = [] ∧ (processContainer w value c s).2 = s) ∨
    ∃ p id, SplitN c.ContainerID "://" 2 = [p, id] ∧
      ((∃ e, (w.taskGet CRI_NAMESPACE id s).1 = .error e ∧
          calls (processContainer w value c s).1 = [.taskGet CRI_NAMESPACE id] ∧
          (processContainer w value c s).2 = (w.taskGet CRI_NAMESPACE id s).2) ∨
       ∃ pid, (w.taskGet CRI_NAMESPACE id s).1 = .ok pid ∧
        ((∃ e, (w.load pid (w.taskGet CRI_NAMESPACE id s).2).1 = some e ∧
            calls (processContainer w value c s).1 = [.taskGet CRI_NAMESPACE id, .load pid] ∧
            (processContainer w value c s).2 = (w.load pid (w.taskGet CRI_NAMESPACE id s).2).2) ∨
         ((w.load pid (w.taskGet CRI_NAMESPACE id s).2).1 = none ∧
          (((w.state pid (w.load pid (w.taskGet CRI_NAMESPACE id s).2).2).1 = Deleted ∧
              calls (processContainer w value c s).1 =
                [.taskGet CRI_NAMESPACE id, .load pid, .state pid] ∧
              (processContainer w value c s).2 =
                (w.state pid (w.load pid (w.taskGet CRI_NAMESPACE id s).2).2).2) ∨
           ((w.state pid (w.load pid (w.taskGet CRI_NAMESPACE id s).2).2).1 ≠ Deleted ∧
              calls (processContainer w value c s).1 =
                [.taskGet CRI_NAMESPACE id, .load pid, .state pid,
                  .update pid (deviceResources value)] ∧
              (processContainer w value c s).2 =
                (w.update pid (deviceResources value)
                  (w.state pid (w.load pid (w.taskGet CRI_NAMESPACE id s).2).2).2).2))))) := by
  unfold processContainer
  split
  · rename_i p id hS
    refine Or.inr ⟨p, id, hS, ?_⟩
    split
    · rename_i e s1 hg
      exact Or.inl ⟨e, by rw [hg], rfl, by rw [hg]⟩
    · rename_i pid s1 hg
      refine Or.inr ⟨pid, by rw [hg], ?_⟩
      rw [hg]
      split
      · rename_i e s2 hl
        exact Or.inl ⟨e, by rw [hl], rfl, by rw [hl]⟩
      · rename_i s2 hl
        refine Or.inr ⟨by rw [hl], ?_⟩
        rw [hl]
        split
        rename_i st s3 hst
        rw [hst]
        split
        · rename_i hd
          exact Or.inl ⟨hd, rfl, rfl⟩
        · rename_i hd
          refine Or.inr ⟨hd, ?_⟩
          split
          · rename_i e s4 hu
            exact ⟨rfl, by rw [hu]⟩
          · rename_i s4 hu
            exact ⟨rfl, by rw [hu]⟩
  · rename_i hS
    exact Or.inl ⟨fun p id h => hS p id h, rfl, rfl⟩

/-- An iteration whose four steps succeed up to the state check makes the four
calls, the last one being the update. -/
theorem processContainer_reaches_update {σ : Type} (w : World σ) (value : String)
    (c : ContainerStatus) (s : σ) (p id : String) (pid : Nat)
    (hS : SplitN c.ContainerID "://" 2 = [p, id])
    (hg : (w.taskGet CRI_NAMESPACE id s).1 = .ok pid)
    (hl : (w.load pid (w.taskGet CRI_NAMESPACE id s).2).1 = none)
    (hst : (w.state pid (w.load pid (w.taskGet CRI_NAMESPACE id s).2).2).1 ≠ Deleted) :
    calls (processContainer w value c s).1 =
        [.taskGet CRI_NAMESPACE id, .load pid, .state pid, .update pid (deviceResources value)] ∧
      (processContainer w value c s).2 =
        (w.update pid (deviceResources value)
          (w.state pid (w.load pid (w.taskGet CRI_NAMESPACE id s).2).2).2).2 := by
  rcases processContainer_cases w value c s with ⟨h, _⟩ | ⟨p', id', hS', h⟩
  · exact absurd hS (h p id)
  · rw [hS] at hS'
    simp only [List.cons.injEq, and_true] at hS'
    obtain ⟨rfl, rfl⟩ := hS'
    rcases h with ⟨e, he, _⟩ | ⟨pid', hg', h⟩
    · rw [hg] at he; cases he
    · rw [hg] at hg'
      cases hg'
      rcases h with ⟨e, he, _⟩ | ⟨_, h⟩
      · rw [hl] at he; cases he
      · rcases h with ⟨hd, _⟩ | ⟨_, h1, h2⟩
        · exact absurd hd hst
        · exact ⟨h1, h2⟩

/-- An update in the trace of an iteration tells that the four steps before it
succeeded, and what was sent where. -/
theorem processContainer_update_mem {σ : Type} (w : World σ) (value : String)
    (c : ContainerStatus) (s : σ) (pid : Nat) (r : LinuxResources)
    (h : (pid, r) ∈ updates (processContainer w value c s).1) :
    r = deviceResources value ∧
      ∃ p id, SplitN c.ContainerID "://" 2 = [p, id] ∧
        (w.taskGet CRI_NAMESPACE id s).1 = .ok pid ∧
        (w.load pid (w.taskGet CRI_NAMESPACE id s).2).1 = none ∧
        (w.state pid (w.load pid (w.taskGet CRI_NAMESPACE id s).2).2).1 ≠ Deleted := by
  rw [← updates_calls] at h
  rcases processContainer_cases w value c s with ⟨_, h1, _⟩ | ⟨p, id, hS, h'⟩
  · rw [h1] at h; simp [updates] at h
  · rcases h' with ⟨e, _, h1, _⟩ | ⟨pid', hg, h'⟩
    · rw [h1] at h; simp [updates] at h
    · rcases h' with ⟨e, _, h1, _⟩ | ⟨hl, h'⟩
      · rw [h1] at h; simp [updates] at h
      · rcases h' with ⟨_, h1, _⟩ | ⟨hst, h1, _⟩
        · rw [h1] at h; simp [updates] at h
        · rw [h1] at h
          simp [updates] at h
          obtain ⟨rfl, rfl⟩ := h
          exact ⟨rfl, p, id, hS, hg, hl, hst⟩

/-- An update in the trace of the loop was issued by the iteration of one of
the containers of the list. -/
theorem rangeContainers_update_mem {σ : Type} (w : World σ) (value : String)
    (cs : List ContainerStatus) (s : σ) (pid : Nat) (r : LinuxResources)
    (h : (pid, r) ∈ updates (rangeContainers w value cs s).1) :
    ∃ c ∈ cs, ∃ s', (pid, r) ∈ updates (processContainer w value c s').1 := by
  induction cs generalizing s with
  | nil => simp [rangeContainers, updates] at h
  | cons c cs ih =>
    rw [rangeContainers_cons, updates_append, List.mem_append] at h
    rcases h with h | h
    · exact ⟨c, List.mem_cons_self _ _, s, h⟩
    · obtain ⟨c', hc', s', h'⟩ := ih _ h
      exact ⟨c', List.mem_cons_of_mem _ hc', s', h'⟩

/-- The four ways through the enforcement task: no session; session and a
liveness check that fails with an error; session and a liveness check that
answers `false`; the loop. -/
theorem enforce_cases {σ : Type} (w : World σ) (pod : Pod) (value : String) (s : σ) :
    (∃ e, (w.newClient containerdSock s).1 = some e ∧
        enforce w pod value s =
          { outcome := .panicked
            events := [.newClient containerdSock, .log .error "create containerd client error"]
            st := (w.newClient containerdSock s).2 }) ∨
    ((w.newClient containerdSock s).1 = none ∧
      ((∃ e, (w.isServing (w.newClient containerdSock s).2).1.2 = some e ∧
          (enforce w pod value s).outcome =
            (if w.development then Outcome.panicked else Outcome.returned) ∧
          calls (enforce w pod value s).events =
            [.newClient containerdSock, .isServing, .close]) ∨
       ((w.isServing (w.newClient containerdSock s).2).1 = (false, none) ∧
          (enforce w pod value s).outcome = .returned ∧
          calls (enforce w pod value s).events =
            [.newClient containerdSock, .isServing, .close]) ∨
       ((w.isServing (w.newClient containerdSock s).2).1 = (true, none) ∧
          (enforce w pod value s).outcome = .returned ∧
          (enforce w pod value s).events =
            [.newClient containerdSock, .isServing] ++
              (rangeContainers w value pod.ContainerStatuses
                (w.isServing (w.newClient containerdSock s).2).2).1 ++ [.close]))) := by
  unfold enforce
  split
  · rename_i e s1 hn
    exact Or.inl ⟨e, by rw [hn], by rw [hn]⟩
  · rename_i s1 hn
    refine Or.inr ⟨by rw [hn], ?_⟩
    rw [hn]
    split
    · rename_i b e s2 hs
      exact Or.inl ⟨e, by rw [hs], rfl, rfl⟩
    · rename_i s2 hs
      exact Or.inr (Or.inl ⟨by rw [hs], rfl, rfl⟩)
    · rename_i s2 hs
      exact Or.inr (Or.inr ⟨by rw [hs], rfl, by rw [hs]⟩)

/-- When the session is established and the liveness check fails, the task
makes the two session calls and the deferred close, and nothing else.  It
returns normally when `IsServing` answered `false` without an error; when
`IsServing` answered with an error it panics under the Development logger. -/
theorem enforce_liveness_failure {σ : Type} (w : World σ) (pod : Pod) (value : String) (s : σ)
    (hnew : (w.newClient containerdSock s).1 = none)
    (hserv : (w.isServing (w.newClient containerdSock s).2).1.2 ≠ none ∨
      (w.isServing (w.newClient containerdSock s).2).1.1 = false) :
    calls (enforce w pod value s).events = [.newClient containerdSock, .isServing, .close] ∧
      lookups (enforce w pod value s).events = [] ∧
      loads (enforce w pod value s).events = [] ∧
      updates (enforce w pod value s).events = [] ∧
      ((w.isServing (w.newClient containerdSock s).2).1.2 = none →
        (enforce w pod value s).outcome = .returned) ∧
      ((w.isServing (w.newClient containerdSock s).2).1.2 ≠ none → w.development = true →
        (enforce w pod value s).outcome = .panicked) := by
  have key : calls (enforce w pod value s).events =
        [.newClient containerdSock, .isServing, .close] ∧
      ((w.isServing (w.newClient containerdSock s).2).1.2 = none →
        (enforce w pod value s).outcome = .returned) ∧
      ((w.isServing (w.newClient containerdSock s).2).1.2 ≠ none → w.development = true →
        (enforce w pod value s).outcome = .panicked) := by
    rcases enforce_cases w pod value s with
      ⟨e', hn, _⟩ | ⟨_, ⟨e, he, ho, hc⟩ | ⟨hf, ho, hc⟩ | ⟨hs, _⟩⟩
    · rw [hnew] at hn; cases hn
    · refine ⟨hc, ?_, ?_⟩
      · intro h; rw [he] at h; cases h
      · intro _ hd; rw [ho, hd]; rfl
    · refine ⟨hc, fun _ => ho, ?_⟩
      intro h; rw [hf] at h; exact absurd rfl h
    · rw [hs] at hserv
      simp at hserv
  obtain ⟨hc, h1, h2⟩ := key
  refine ⟨hc, ?_, ?_, ?_, h1, h2⟩
  · rw [← lookups_calls, hc]; rfl
  · rw [← loads_calls, hc]; rfl
  · rw [← updates_calls, hc]; rfl

theorem afterFirst_eq_Index (sep s : List Char) :
    afterFirst sep s = (Index s sep).map fun m => s.drop (m + sep.length) := by
  induction s with
  | nil =>
    unfold afterFirst Index
    split <;> simp
  | cons c cs ih =>
    unfold afterFirst Index
    split
    · simp
    · rw [ih]
      cases Index cs sep with
      | none => rfl
      | some m =>
        simp only [Option.map_some']
        rw [show m + 1 + sep.length = (m + sep.length) + 1 by omega, List.drop_succ_cons]

/-- The lookups of one iteration are the lookup expected for its container. -/
theorem processContainer_lookups {σ : Type} (w : World σ) (value : String)
    (c : ContainerStatus) (s : σ) :
    lookups (processContainer w value c s).1 = (expectedLookup c).toList := by
  have hexp : expectedLookup c =
      match SplitN c.ContainerID "://" 2 with
      | [_, id] => some ("k8s.io", id)
      | _ => none := by
    unfold expectedLookup
    rw [afterFirst_eq_Index, SplitN_scheme]
    cases Index c.ContainerID.data [':', '/', '/'] with
    | none => rfl
    | some m => rfl
  rw [← lookups_calls]
  rcases processContainer_cases w value c s with ⟨hS, h1, _⟩ | ⟨p, id, hS, h⟩
  · rw [h1, hexp]
    split
    · rename_i p id hS'
      exact absurd hS' (hS p id)
    · rfl
  · rw [hexp, hS]
    rcases h with ⟨_, _, h1, _⟩ | ⟨pid, _, ⟨_, _, h1, _⟩ | ⟨_, ⟨_, h1, _⟩ | ⟨_, h1, _⟩⟩⟩ <;>
      (rw [h1]; rfl)

/-- The lookups of the loop: one for each container whose identifier holds
`://`, in the order of the list. -/
theorem rangeContainers_lookups {σ : Type} (w : World σ) (value : String)
    (cs : List ContainerStatus) (s : σ) :
    lookups (rangeContainers w value cs s).1 = cs.filterMap expectedLookup := by
  induction cs generalizing s with
  | nil => rfl
  | cons c cs ih =>
    rw [rangeContainers_cons, lookups_append, ih, processContainer_lookups, List.filterMap_cons]
    cases expectedLookup c <;> rfl

/-- The reconciler starts the enforcement task only for a running, undeleted
pod, with the non-empty value of its policy annotation. -/
theorem Reconcile_spawned {σ : Type} (w : World σ) (req : Request) (s : σ) (pod : Pod)
    (value : String) (h : (Reconcile w req s).spawned = some (pod, value)) :
    (w.get req s).1 = .ok pod ∧ pod.DeletionTimestamp = none ∧ pod.Phase = PodRunning ∧
      value = mapIndex pod.Annotations ALLOW_BLOCK_KEY ∧ value ≠ "" := by
  unfold Reconcile at h
  split at h
  · split at h <;> simp at h
  · rename_i pod' s1 hget
    split at h
    · simp at h
    · rename_i hgate
      dsimp only at h
      split at h
      · simp at h
      · rename_i hlen
        simp only [Option.some.injEq, Prod.mk.injEq] at h
        obtain ⟨rfl, rfl⟩ := h
        refine ⟨by rw [hget], ?_, ?_, rfl, ?_⟩
        · by_contra hd; exact hgate (Or.inl hd)
        · by_contra hd; exact hgate (Or.inr hd)
        · intro he
          apply hlen
          rw [he]
          decide

/-- The call of `Reconcile` itself logs, fetches the pod and logs its verdict:
it makes no call to the runtime or to the cgroup library. -/
theorem Reconcile_events {σ : Type} (w : World σ) (req : Request) (s : σ) :
    ∃ m, (Reconcile w req s).events =
      [.log .info "pod %v reconcile", .get req, .log .info m] := by
  unfold Reconcile
  split
  · split <;> exact ⟨_, rfl⟩
  · split
    · exact ⟨_, rfl⟩
    · dsimp only
      split <;> exact ⟨_, rfl⟩

/-! ## The claims -/

/-- C1. Whatever the fetch answers and whatever the collaborators of the
enforcement task do, `Reconcile` returns the empty result (no requeue, no
delay) and a nil error. -/
theorem Reconcile_returns_done {σ : Type} (w : World σ) (req : Request) (s : σ) :
    (Reconcile w req s).result = { Requeue := false, RequeueAfter := 0 } ∧
      (Reconcile w req s).err = none := by
  unfold Reconcile
  split
  · split <;> exact ⟨rfl, rfl⟩
  · split
    · exact ⟨rfl, rfl⟩
    · dsimp only
      split <;> exact ⟨rfl, rfl⟩

/-- C2. When the fetched pod has no annotation map, or a map without the
policy key, or maps the key to the empty string, `Reconcile` starts no
enforcement task, and the whole cycle opens no containerd session, makes no
task lookup and issues no cgroup update, whatever the phase and the container
statuses are. -/
theorem no_annotation_no_runtime_contact {σ : Type} (w : World σ) (req : Request) (s : σ)
    (pod : Pod) (hget : (w.get req s).1 = .ok pod)
    (hann : pod.Annotations = none ∨
      ∃ kvs, pod.Annotations = some kvs ∧
        (kvs.lookup ALLOW_BLOCK_KEY = none ∨ kvs.lookup ALLOW_BLOCK_KEY = some "")) :
    (Reconcile w req s).spawned = none ∧ sessions (cycleEvents w req s) = [] ∧
      lookups (cycleEvents w req s) = [] ∧ updates (cycleEvents w req s) = [] := by
  have hval : mapIndex pod.Annotations ALLOW_BLOCK_KEY = "" := by
    rcases hann with h | ⟨kvs, h, h1 | h1⟩ <;> simp [mapIndex, h, *]
  have hsp : (Reconcile w req s).spawned = none := by
    cases hsp : (Reconcile w req s).spawned with
    | none => rfl
    | some pv =>
      obtain ⟨pod', value⟩ := pv
      obtain ⟨h1, _, _, h4, h5⟩ := Reconcile_spawned w req s pod' value hsp
      rw [hget] at h1
      cases h1
      exact absurd (h4.trans hval) h5
  have hev : cycleEvents w req s = (Reconcile w req s).events := by
    unfold cycleEvents
    rw [hsp]
  obtain ⟨m, hm⟩ := Reconcile_events w req s
  rw [hev, hm]
  exact ⟨hsp, rfl, rfl, rfl⟩

/-- C3. When the fetched pod carries a deletion timestamp, or its phase is not
`Running`, `Reconcile` starts no enforcement task and the cycle issues no
cgroup update, whatever the annotations and container statuses are. -/
theorem not_running_no_update {σ : Type} (w : World σ) (req : Request) (s : σ)
    (pod : Pod) (hget : (w.get req s).1 = .ok pod)
    (hgate : pod.DeletionTimestamp ≠ none ∨ pod.Phase ≠ "Running") :
    (Reconcile w req s).spawned = none ∧ updates (cycleEvents w req s) = [] := by
  have hsp : (Reconcile w req s).spawned = none := by
    cases hsp : (Reconcile w req s).spawned with
    | none => rfl
    | some pv =>
      obtain ⟨pod', value⟩ := pv
      obtain ⟨h1, h2, h3, _, _⟩ := Reconcile_spawned w req s pod' value hsp
      rw [hget] at h1
      cases h1
      rcases hgate with h | h
      · exact absurd h2 h
      · exact absurd h3 h
  have hev : cycleEvents w req s = (Reconcile w req s).events := by
    unfold cycleEvents
    rw [hsp]
  obtain ⟨m, hm⟩ := Reconcile_events w req s
  rw [hev, hm]
  exact ⟨hsp, rfl⟩

/-- C4. Isolation.  In a batch `pre ++ B :: post`, container `B` is processed
in the state the containers before it leave, whatever failed for them, and
the containers after `B` follow.  An update is issued for `B` when its own
identifier splits, its own lookup, its own load succeed and its handle is not
Deleted, and only then.  For two containers, the first with a failing lookup
and the second passing its own steps, the batch issues exactly one update,
addressed to the second container's pid. -/
theorem container_isolation {σ : Type} (w : World σ) (value : String)
    (pre post : List ContainerStatus) (B : ContainerStatus) (s : σ) :
    (rangeContainers w value (pre ++ B :: post) s).1 =
        (rangeContainers w value pre s).1 ++
          (processContainer w value B (rangeContainers w value pre s).2).1 ++
          (rangeContainers w value post
            (processContainer w value B (rangeContainers w value pre s).2).2).1 ∧
    (∀ (s' : σ) (p id : String) (pid : Nat),
        SplitN B.ContainerID "://" 2 = [p, id] →
        (w.taskGet CRI_NAMESPACE id s').1 = .ok pid →
        (w.load pid (w.taskGet CRI_NAMESPACE id s').2).1 = none →
        (w.state pid (w.load pid (w.taskGet CRI_NAMESPACE id s').2).2).1 ≠ Deleted →
        updates (processContainer w value B s').1 = [(pid, deviceResources value)]) ∧
    (∀ (s' : σ) (pid : Nat) (r : LinuxResources),
        (pid, r) ∈ updates (processContainer w value B s').1 →
        ∃ p id, SplitN B.ContainerID "://" 2 = [p, id] ∧
          (w.taskGet CRI_NAMESPACE id s').1 = .ok pid ∧
          (w.load pid (w.taskGet CRI_NAMESPACE id s').2).1 = none ∧
          (w.state pid (w.load pid (w.taskGet CRI_NAMESPACE id s').2).2).1 ≠ Deleted) ∧
    (∀ (A : ContainerStatus) (pA idA : String) (e : Error) (p id : String) (pid : Nat),
        SplitN A.ContainerID "://" 2 = [pA, idA] →
        (w.taskGet CRI_NAMESPACE idA s).1 = .error e →
        SplitN B.ContainerID "://" 2 = [p, id] →
        (w.taskGet CRI_NAMESPACE id (w.taskGet CRI_NAMESPACE idA s).2).1 = .ok pid →
        (w.load pid (w.taskGet CRI_NAMESPACE id (w.taskGet CRI_NAMESPACE idA s).2).2).1 = none →
        (w.state pid
          (w.load pid (w.taskGet CRI_NAMESPACE id (w.taskGet CRI_NAMESPACE idA s).2).2).2).1
            ≠ Deleted →
        updates (rangeContainers w value [A, B] s).1 = [(pid, deviceResources value)]) := by
  have hyes : ∀ (s' : σ) (p id : String) (pid : Nat),
      SplitN B.ContainerID "://" 2 = [p, id] →
      (w.taskGet CRI_NAMESPACE id s').1 = .ok pid →
      (w.load pid (w.taskGet CRI_NAMESPACE id s').2).1 = none →
      (w.state pid (w.load pid (w.taskGet CRI_NAMESPACE id s').2).2).1 ≠ Deleted →
      updates (processContainer w value B s').1 = [(pid, deviceResources value)] := by
    intro s' p id pid hS hg hl hst
    rw [← updates_calls, (processContainer_reaches_update w value B s' p id pid hS hg hl hst).1]
    rfl
  refine ⟨?_, hyes, ?_, ?_⟩
  · rw [rangeContainers_append, rangeContainers_cons]
    simp [List.append_assoc]
  · intro s' pid r h
    exact (processContainer_update_mem w value B s' pid r h).2
  · intro A pA idA e p id pid hSA hgA hS hg hl hst
    have hA : calls (processContainer w value A s).1 = [.taskGet CRI_NAMESPACE idA] ∧
        (processContainer w value A s).2 = (w.taskGet CRI_NAMESPACE idA s).2 := by
      rcases processContainer_cases w value A s with ⟨h, _⟩ | ⟨p', id', hS', h⟩
      · exact absurd hSA (h pA idA)
      · rw [hSA] at hS'
        simp only [List.cons.injEq, and_true] at hS'
        obtain ⟨rfl, rfl⟩ := hS'
        rcases h with ⟨_, _, h1, h2⟩ | ⟨pid', hg', _⟩
        · exact ⟨h1, h2⟩
        · rw [hgA] at hg'; cases hg'
    rw [rangeContainers_cons, rangeContainers_cons, updates_append, updates_append, hA.2,
      hyes _ p id pid hS hg hl hst, ← updates_calls, hA.1]
    rfl

/-- C5. A container whose identifier does not contain `://` only produces a
log line: no lookup, no load, no update, and the world is left as it was.  The
batch goes on: the containers after it make the same calls and leave the same
world as in the batch without it. -/
theorem malformed_id_skipped {σ : Type} (w : World σ) (value : String)
    (c : ContainerStatus) (h : ¬ Contains c.ContainerID "://")
    (pre post : List ContainerStatus) (s : σ) :
    (∀ s' : σ, calls (processContainer w value c s').1 = [] ∧
        lookups (processContainer w value c s').1 = [] ∧
        loads (processContainer w value c s').1 = [] ∧
        updates (processContainer w value c s').1 = [] ∧
        (processContainer w value c s').2 = s') ∧
    (rangeContainers w value (c :: post) s).1 =
        .log .info "pod(%v/%v) container(%v) containerId invalid : %v" ::
          (rangeContainers w value post s).1 ∧
    calls (rangeContainers w value (pre ++ c :: post) s).1 =
        calls (rangeContainers w value (pre ++ post) s).1 ∧
    (rangeContainers w value (pre ++ c :: post) s).2 =
        (rangeContainers w value (pre ++ post) s).2 := by
  have hc := processContainer_unsplit w value c
  refine ⟨?_, ?_, ?_, ?_⟩
  · intro s'
    rw [hc s' h]
    exact ⟨rfl, rfl, rfl, rfl, rfl⟩
  · rw [rangeContainers_cons, hc s h]
    rfl
  · rw [rangeContainers_append, rangeContainers_append, rangeContainers_cons, hc _ h]
    simp only [calls_append]
    rfl
  · rw [rangeContainers_append, rangeContainers_append, rangeContainers_cons, hc _ h]

/-- C6. A container whose id splits, whose task is found, whose cgroup loads
and whose handle reports Deleted makes the lookup, the load and the state
check and nothing more: no update is issued for it, and the loop goes on with
the containers after it. -/
theorem deleted_cgroup_skipped {σ : Type} (w : World σ) (value : String)
    (c : ContainerStatus) (post : List ContainerStatus) (s : σ) (p id : String) (pid : Nat)
    (hS : SplitN c.ContainerID "://" 2 = [p, id])
    (hg : (w.taskGet CRI_NAMESPACE id s).1 = .ok pid)
    (hl : (w.load pid (w.taskGet CRI_NAMESPACE id s).2).1 = none)
    (hst : (w.state pid (w.load pid (w.taskGet CRI_NAMESPACE id s).2).2).1 = Deleted) :
    calls (processContainer w value c s).1 =
        [.taskGet CRI_NAMESPACE id, .load pid, .state pid] ∧
    updates (processContainer w value c s).1 = [] ∧
    (rangeContainers w value (c :: post) s).1 =
        (processContainer w value c s).1 ++
          (rangeContainers w value post
            (w.state pid (w.load pid (w.taskGet CRI_NAMESPACE id s).2).2).2).1 := by
  have hc : calls (processContainer w value c s).1 =
        [.taskGet CRI_NAMESPACE id, .load pid, .state pid] ∧
      (processContainer w value c s).2 =
        (w.state pid (w.load pid (w.taskGet CRI_NAMESPACE id s).2).2).2 := by
    rcases processContainer_cases w value c s with ⟨h, _⟩ | ⟨p', id', hS', h⟩
    · exact absurd hS (h p id)
    · rw [hS] at hS'
      simp only [List.cons.injEq, and_true] at hS'
      obtain ⟨rfl, rfl⟩ := hS'
      rcases h with ⟨e, he, _⟩ | ⟨pid', hg', h⟩
      · rw [hg] at he; cases he
      · rw [hg] at hg'
        cases hg'
        rcases h with ⟨e, he, _⟩ | ⟨_, h⟩
        · rw [hl] at he; cases he
        · rcases h with ⟨_, h1, h2⟩ | ⟨hd, _⟩
          · exact ⟨h1, h2⟩
          · exact absurd hst hd
  refine ⟨hc.1, ?_, ?_⟩
  · rw [← updates_calls, hc.1]
    rfl
  · rw [rangeContainers_cons, hc.2]

/-- C7. A container that reaches the update step gets exactly one update,
addressed to the cgroup of the pid the runtime returned for it, carrying
exactly one device rule: allow, type `b`, no major, no minor, access equal to
the value.  And every update issued in a reconciliation cycle comes from a
fetched pod whose policy annotation has a non-empty value `v`, is addressed
to the pid returned by the lookup of one of the pod's containers, and carries
that one rule with access `v`. -/
theorem update_request_shape {σ : Type} (w : World σ) :
    (∀ (value : String) (c : ContainerStatus) (s : σ) (p id : String) (pid : Nat),
        SplitN c.ContainerID "://" 2 = [p, id] →
        (w.taskGet CRI_NAMESPACE id s).1 = .ok pid →
        (w.load pid (w.taskGet CRI_NAMESPACE id s).2).1 = none →
        (w.state pid (w.load pid (w.taskGet CRI_NAMESPACE id s).2).2).1 ≠ Deleted →
        updates (processContainer w value c s).1 =
          [(pid, { Devices := [{ Allow := true, Type_ := "b", Major := none, Minor := none,
                                 Access := value }] })]) ∧
    (∀ (req : Request) (s : σ) (pid : Nat) (r : LinuxResources),
        (pid, r) ∈ updates (cycleEvents w req s) →
        ∃ pod v, (w.get req s).1 = .ok pod ∧ v = mapIndex pod.Annotations ALLOW_BLOCK_KEY ∧
          v ≠ "" ∧
          r = { Devices := [{ Allow := true, Type_ := "b", Major := none, Minor := none,
                              Access := v }] } ∧
          ∃ c ∈ pod.ContainerStatuses, ∃ p id s',
            SplitN c.ContainerID "://" 2 = [p, id] ∧
              (w.taskGet CRI_NAMESPACE id s').1 = .ok pid) := by
  refine ⟨?_, ?_⟩
  · intro value c s p id pid hS hg hl hst
    rw [← updates_calls, (processContainer_reaches_update w value c s p id pid hS hg hl hst).1]
    rfl
  intro req s pid r h
  obtain ⟨m, hm⟩ := Reconcile_events w req s
  unfold cycleEvents at h
  cases hsp : (Reconcile w req s).spawned with
  | none =>
    rw [hsp] at h
    simp only [hm] at h
    simp [updates] at h
  | some pv =>
    obtain ⟨pod, value⟩ := pv
    rw [hsp] at h
    simp only [hm, updates_append] at h
    obtain ⟨h1, _, _, h4, h5⟩ := Reconcile_spawned w req s pod value hsp
    have hloop : (pid, r) ∈ updates
        (enforce w pod value (Reconcile w req s).st).events := by
      simpa [updates] using h
    have hmem : ∃ t, (pid, r) ∈ updates (rangeContainers w value pod.ContainerStatuses t).1 := by
      rcases enforce_cases w pod value (Reconcile w req s).st with
        ⟨e, _, he⟩ | ⟨_, ⟨_, _, _, hc⟩ | ⟨_, _, hc⟩ | ⟨_, _, he⟩⟩
      · rw [he] at hloop; simp [updates] at hloop
      · rw [← updates_calls, hc] at hloop; simp [updates] at hloop
      · rw [← updates_calls, hc] at hloop; simp [updates] at hloop
      · rw [he, updates_append, updates_append] at hloop
        refine ⟨(w.isServing (w.newClient containerdSock (Reconcile w req s).st).2).2, ?_⟩
        simpa [updates] using hloop
    obtain ⟨t, ht⟩ := hmem
    obtain ⟨c, hc, s', hs'⟩ := rangeContainers_update_mem w value _ t pid r ht
    obtain ⟨hr, p, id, hS, hg, _, _⟩ := processContainer_update_mem w value c s' pid r hs'
    exact ⟨pod, value, h1, h4, h5, hr, c, hc, p, id, s', hS, hg⟩

/-- C8, as the code has it.  When `containerd.New` answers with an error, the
enforcement task makes that one call, logs the error and panics: it makes no
liveness check, no task lookup, no cgroup load and no cgroup update, and it
does not return normally. -/
theorem session_failure_panics {σ : Type} (w : World σ) (pod : Pod) (value : String) (s : σ)
    (e : Error) (hnew : (w.newClient containerdSock s).1 = some e) :
    (enforce w pod value s).outcome = .panicked ∧
      (enforce w pod value s).events =
        [.newClient containerdSock, .log .error "create containerd client error"] ∧
      lookups (enforce w pod value s).events = [] ∧
      loads (enforce w pod value s).events = [] ∧
      updates (enforce w pod value s).events = [] := by
  rcases enforce_cases w pod value s with ⟨e', _, he⟩ | ⟨hn, _⟩
  · rw [he]
    exact ⟨rfl, rfl, rfl, rfl, rfl⟩
  · rw [hnew] at hn; cases hn

/-- C10. A container whose identifier is `scheme ++ "://" ++ rest`, with no
`://` inside `scheme`, gets exactly one task lookup, in namespace `k8s.io`,
keyed by `rest` (whatever `rest` holds, and also when `scheme` or `rest` is
empty).  Every identifier that contains `://` is of that form, so it gets
exactly one lookup, keyed by the text after its first `://`; an identifier
without `://` gets none.  The loop visits every container: the lookups of a
batch, and those of an enforcement task whose session is established and
serving, are the expected lookups of the container statuses, one for each
identifier that contains `://`, in the order of the list. -/
theorem lookup_keyed_by_bare_id {σ : Type} (w : World σ) (value : String) :
    (∀ (c : ContainerStatus) (s : σ) (scheme rest : String),
        c.ContainerID = scheme ++ "://" ++ rest →
        ¬ Contains scheme "://" →
        expectedLookup c = some ("k8s.io", rest) ∧
          lookups (processContainer w value c s).1 = [("k8s.io", rest)]) ∧
    (∀ (c : ContainerStatus) (s : σ), Contains c.ContainerID "://" →
        ∃ scheme rest : String, c.ContainerID = scheme ++ "://" ++ rest ∧
          ¬ Contains scheme "://" ∧
          lookups (processContainer w value c s).1 = [("k8s.io", rest)]) ∧
    (∀ (c : ContainerStatus) (s : σ), ¬ Contains c.ContainerID "://" →
        expectedLookup c = none ∧ lookups (processContainer w value c s).1 = []) ∧
    (∀ (cs : List ContainerStatus) (s : σ),
        lookups (rangeContainers w value cs s).1 = cs.filterMap expectedLookup) ∧
    (∀ (pod : Pod) (s : σ),
        (w.newClient containerdSock s).1 = none →
        (w.isServing (w.newClient containerdSock s).2).1 = (true, none) →
        lookups (enforce w pod value s).events =
          pod.ContainerStatuses.filterMap expectedLookup) := by
  have hkey : ∀ (c : ContainerStatus) (s : σ) (scheme rest : String),
      c.ContainerID = scheme ++ "://" ++ rest →
      ¬ Contains scheme "://" →
      expectedLookup c = some ("k8s.io", rest) ∧
        lookups (processContainer w value c s).1 = [("k8s.io", rest)] := by
    intro c s scheme rest hid hno
    have hdata : c.ContainerID.data = scheme.data ++ [':', '/', '/'] ++ rest.data := by
      rw [hid]
      simp [String.data_append]
    have hdrop : List.drop (scheme.data.length + 3)
        (scheme.data ++ [':', '/', '/'] ++ rest.data) = rest.data := by
      rw [List.append_assoc, List.drop_append]
      rfl
    have hexp : expectedLookup c = some ("k8s.io", rest) := by
      unfold expectedLookup
      rw [afterFirst_eq_Index, hdata, Index_scheme _ _ hno]
      show some ("k8s.io", String.mk (List.drop (scheme.data.length + 3) _)) = _
      rw [hdrop]
    refine ⟨hexp, ?_⟩
    rw [processContainer_lookups, hexp]
    rfl
  refine ⟨hkey, ?_, ?_, rangeContainers_lookups w value, ?_⟩
  · intro c s hc
    cases hI : Index c.ContainerID.data [':', '/', '/'] with
    | none => exact absurd hc ((Index_eq_none_iff _ _).1 hI)
    | some m =>
      obtain ⟨hcut, hno⟩ := Index_eq_some _ _ m (by simp) hI
      have hid : c.ContainerID =
          String.mk (c.ContainerID.data.take m) ++ "://" ++
            String.mk (c.ContainerID.data.drop (m + 3)) := by
        apply String.ext
        simp only [String.data_append]
        exact hcut
      exact ⟨_, _, hid, hno, (hkey c s _ _ hid hno).2⟩
  · intro c s hc
    have hI : Index c.ContainerID.data [':', '/', '/'] = none := (Index_eq_none_iff _ _).2 hc
    have hexp : expectedLookup c = none := by
      unfold expectedLookup
      rw [afterFirst_eq_Index, hI]
      rfl
    refine ⟨hexp, ?_⟩
    rw [processContainer_lookups, hexp]
    rfl
  · intro pod s hnew hserv
    rcases enforce_cases w pod value s with
      ⟨e, hn, _⟩ | ⟨_, ⟨e, he, _⟩ | ⟨hf, _⟩ | ⟨_, _, hev⟩⟩
    · rw [hnew] at hn; cases hn
    · rw [hserv] at he; cases he
    · rw [hserv] at hf; cases hf
    · rw [hev, lookups_append, lookups_append, rangeContainers_lookups]
      simp [lookups]

/-! ## The claims at concrete inputs -/

theorem no_annotation_no_runtime_contact_witness :
    ((scenarioWorld podUnannotated none (true, none) scenarioPid "thawed").get
        scenarioReq ()).1 = .ok podUnannotated ∧
      podUnannotated.Annotations = none ∧
      sessions (cycleEvents
        (scenarioWorld podUnannotated none (true, none) scenarioPid "thawed") scenarioReq ()) = [] ∧
      lookups (cycleEvents
        (scenarioWorld podUnannotated none (true, none) scenarioPid "thawed") scenarioReq ()) = [] ∧
      updates (cycleEvents
        (scenarioWorld podUnannotated none (true, none) scenarioPid "thawed") scenarioReq ()) = [] :=
  ⟨rfl, rfl,
    (no_annotation_no_runtime_contact
      (scenarioWorld podUnannotated none (true, none) scenarioPid "thawed") scenarioReq ()
      podUnannotated rfl (Or.inl rfl)).2⟩

theorem not_running_no_update_witness :
    (scenarioPod "Pending" "rwm" [containerAbc]).Phase ≠ "Running" ∧
      updates (cycleEvents (mainWorld "Pending" [containerAbc]) scenarioReq ()) = [] :=
  ⟨by decide,
    (not_running_no_update (mainWorld "Pending" [containerAbc]) scenarioReq ()
      (scenarioPod "Pending" "rwm" [containerAbc]) rfl (Or.inr (by decide))).2⟩

theorem container_isolation_witness :
    ((mainWorld "Running" [containerGone, containerAbc]).taskGet CRI_NAMESPACE "gone" ()).1
        = .error "not found" ∧
      updates (rangeContainers (mainWorld "Running" [containerGone, containerAbc]) "rwm"
        [containerGone, containerAbc] ()).1 = [(4242, deviceResources "rwm")] :=
  ⟨rfl,
    (container_isolation (mainWorld "Running" [containerGone, containerAbc]) "rwm" [] []
      containerAbc ()).2.2.2 containerGone "containerd" "gone" "not found" "containerd" "abc123"
      4242 (by decide) rfl (by decide) rfl rfl (by decide)⟩

theorem malformed_id_skipped_witness :
    ¬ Contains containerBare.ContainerID "://" ∧
      calls (rangeContainers (mainWorld "Running" [containerBare, containerAbc]) "rwm"
        ([] ++ containerBare :: [containerAbc]) ()).1 =
      calls (rangeContainers (mainWorld "Running" [containerBare, containerAbc]) "rwm"
        ([] ++ [containerAbc]) ()).1 :=
  have h : ¬ Contains containerBare.ContainerID "://" :=
    (Index_eq_none_iff _ _).1 (by decide)
  ⟨h, (malformed_id_skipped (mainWorld "Running" [containerBare, containerAbc]) "rwm"
    containerBare h [] [containerAbc] ()).2.2.1⟩

theorem deleted_cgroup_skipped_witness :
    (deletedWorld.state 4242 ()).1 = Deleted ∧
      updates (processContainer deletedWorld "rwm" containerAbc ()).1 = [] :=
  ⟨rfl,
    (deleted_cgroup_skipped deletedWorld "rwm" containerAbc [] () "containerd" "abc123" 4242
      (by decide) rfl rfl rfl).2.1⟩

/-- The scenario of C7: annotation `rwm`, phase `Running`, one container
`containerd://abc123` resolved to pid 4242: the cycle issues exactly one
update, for pid 4242, and it is the block-device rule with access `rwm`. -/
theorem update_request_shape_witness :
    updates (cycleEvents (mainWorld "Running" [containerAbc]) scenarioReq ()) =
        [(4242, { Devices := [{ Allow := true, Type_ := "b", Major := none, Minor := none,
                                Access := "rwm" }] })] ∧
      updates (processContainer (mainWorld "Running" [containerAbc]) "rwm" containerAbc ()).1 =
        [(4242, { Devices := [{ Allow := true, Type_ := "b", Major := none, Minor := none,
                                Access := "rwm" }] })] ∧
      ∃ pod v, ((mainWorld "Running" [containerAbc]).get scenarioReq ()).1 = .ok pod ∧
        v = mapIndex pod.Annotations ALLOW_BLOCK_KEY ∧ v ≠ "" ∧
        deviceResources "rwm" =
          { Devices := [{ Allow := true, Type_ := "b", Major := none, Minor := none,
                          Access := v }] } ∧
        ∃ c ∈ pod.ContainerStatuses, ∃ p id s',
          SplitN c.ContainerID "://" 2 = [p, id] ∧
            ((mainWorld "Running" [containerAbc]).taskGet CRI_NAMESPACE id s').1 = .ok 4242 :=
  ⟨by decide,
    (update_request_shape (mainWorld "Running" [containerAbc])).1 "rwm" containerAbc ()
      "containerd" "abc123" 4242 (by decide) rfl rfl (by decide),
    (update_request_shape (mainWorld "Running" [containerAbc])).2 scenarioReq () 4242
      (deviceResources "rwm") (by decide)⟩

/-- C8, as the claim has it, fails: with a containerd that cannot be reached
the enforcement task does not return normally. -/
theorem session_failure_does_not_return :
    (noSessionWorld.newClient containerdSock ()).1 = some "connection refused" ∧
      (enforce noSessionWorld (scenarioPod "Running" "rwm" [containerAbc]) "rwm" ()).outcome
        ≠ Outcome.returned :=
  ⟨rfl, by decide⟩

theorem session_failure_panics_witness :
    (noSessionWorld.newClient containerdSock ()).1 = some "connection refused" ∧
      (enforce noSessionWorld (scenarioPod "Running" "rwm" [containerAbc]) "rwm" ()).outcome
        = Outcome.panicked ∧
      updates
        (enforce noSessionWorld (scenarioPod "Running" "rwm" [containerAbc]) "rwm" ()).events
          = [] :=
  ⟨rfl,
    (session_failure_panics noSessionWorld (scenarioPod "Running" "rwm" [containerAbc]) "rwm" ()
      "connection refused" rfl).1,
    (session_failure_panics noSessionWorld (scenarioPod "Running" "rwm" [containerAbc]) "rwm" ()
      "connection refused" rfl).2.2.2.2⟩

/-- C9 at the failing input.  The session is established, `IsServing` answers
with an error, the logger is the one `main.go` builds: the task makes the two
session calls and the deferred close, no lookup, no load and no update, and
it ends in a panic, raised by the log call of the error branch.  With
`IsServing` answering `false` and no error, the same task returns normally. -/
theorem liveness_error_panics :
    (healthErrorWorld.newClient containerdSock ()).1 = none ∧
      (healthErrorWorld.isServing (healthErrorWorld.newClient containerdSock ()).2).1
        = (false, some "context canceled") ∧
      healthErrorWorld.development = true ∧
      (enforce healthErrorWorld (scenarioPod "Running" "rwm" [containerAbc]) "rwm" ()).outcome
        = Outcome.panicked ∧
      calls
        (enforce healthErrorWorld (scenarioPod "Running" "rwm" [containerAbc]) "rwm" ()).events
          = [.newClient containerdSock, .isServing, .close] ∧
      lookups
        (enforce healthErrorWorld (scenarioPod "Running" "rwm" [containerAbc]) "rwm" ()).events
          = [] ∧
      updates
        (enforce healthErrorWorld (scenarioPod "Running" "rwm" [containerAbc]) "rwm" ()).events
          = [] ∧
      (enforce notServingWorld (scenarioPod "Running" "rwm" [containerAbc]) "rwm" ()).outcome
        = Outcome.returned :=
  have h := enforce_liveness_failure healthErrorWorld
    (scenarioPod "Running" "rwm" [containerAbc]) "rwm" () rfl (Or.inl (by decide))
  ⟨rfl, rfl, rfl, h.2.2.2.2.2 (by decide) rfl, h.1, h.2.1, h.2.2.2.1,
    (enforce_liveness_failure notServingWorld
      (scenarioPod "Running" "rwm" [containerAbc]) "rwm" () rfl (Or.inr rfl)).2.2.2.2.1 rfl⟩

/-- The witness of C10: in a batch of a container without scheme separator
and the container `containerd://abc123`, run by an enforcement task with a
serving session, exactly one lookup is made: `abc123`, in namespace
`k8s.io`. -/
theorem lookup_keyed_by_bare_id_witness :
    containerAbc.ContainerID = "containerd" ++ "://" ++ "abc123" ∧
      ¬ Contains "containerd" "://" ∧
      lookups (processContainer (mainWorld "Running" [containerBare, containerAbc]) "rwm"
        containerAbc ()).1 = [("k8s.io", "abc123")] ∧
      lookups (enforce (mainWorld "Running" [containerBare, containerAbc])
        (scenarioPod "Running" "rwm" [containerBare, containerAbc]) "rwm" ()).events
          = [("k8s.io", "abc123")] :=
  have h : ¬ Contains "containerd" "://" := (Index_eq_none_iff _ _).1 (by decide)
  ⟨by decide, h,
    ((lookup_keyed_by_bare_id (mainWorld "Running" [containerBare, containerAbc]) "rwm").1
      containerAbc () "containerd" "abc123" (by decide) h).2,
    ((lookup_keyed_by_bare_id (mainWorld "Running" [containerBare, containerAbc])
      "rwm").2.2.2.2 (scenarioPod "Running" "rwm" [containerBare, containerAbc]) () rfl rfl).trans
      (by decide)⟩

end CgroupEnhancer
